import Mathlib

/-! Shallow embedding of the overseer comment scanner (src/main.py and src/config.py). -/

namespace Overseer

/-- Character lists stand in for Python strings. -/
abbrev Str := List Char

/-- Shorthand for writing a character list as a string literal. -/
def cs (s : String) : Str := s.toList

/-- Python whitespace characters relevant to str.strip(). -/
def isPySpace (c : Char) : Bool :=
  c == ' ' || c == '\t' || c == '\n' || c == '\r' || c == '\x0b' || c == '\x0c'

/-- Python str.strip(): remove leading and trailing whitespace. -/
def pyStrip (s : Str) : Str :=
  ((s.dropWhile isPySpace).reverse.dropWhile isPySpace).reverse

/-- Does the first list occur at the very front of the second (Python str.startswith)? -/
def startsWithL : Str → Str → Bool
  | [], _ => true
  | _ :: _, [] => false
  | p :: ps, c :: fs => p == c && startsWithL ps fs

/-- Python substring containment, `pat in s`. -/
def containsSub (pat : Str) : Str → Bool
  | [] => startsWithL pat []
  | c :: fs => startsWithL pat (c :: fs) || containsSub pat fs

/-- Helper for Python str.find: lowest index at or after the accumulator where pat occurs. -/
def findAux (pat : Str) : Str → Nat → Option Nat
  | [], i => if startsWithL pat [] then some i else none
  | c :: fs, i => if startsWithL pat (c :: fs) then some i else findAux pat fs (i + 1)

/-- Python str.find as an Option (the scanner only calls it under a containment guard). -/
def findSub (pat s : Str) : Option Nat := findAux pat s 0

/-- Python str.find, defaulting to 0; every use in the embedded code is guarded by
containment, where the default is never taken. -/
def findD (pat s : Str) : Nat := (findSub pat s).getD 0

/-- All positions (ascending, overlap allowed) at which pat occurs in s, offset by i. -/
def occAux (pat : Str) : Str → Nat → List Nat
  | [], i => if startsWithL pat [] then [i] else []
  | c :: fs, i =>
    (if startsWithL pat (c :: fs) then [i] else []) ++ occAux pat fs (i + 1)

/-- All positions at which pat occurs in s. -/
def occList (pat s : Str) : List Nat := occAux pat s 0

/-- Python str.rfind (highest occurrence position), defaulting to 0; the scanner only
uses it under a containment guard. -/
def rfindD (pat s : Str) : Nat := ((occList pat s).getLast?).getD 0

/-- Python sep.join(parts). -/
def joinWith (sep : Str) : List Str → Str
  | [] => []
  | [x] => x
  | x :: y :: rest => x ++ sep ++ joinWith sep (y :: rest)

/-- Comment grammar of one file extension: single-line marker strings and the optional
pair of block-comment delimiters (COMMENT_PATTERNS entries in src/config.py). -/
structure Grammar where
  single : List Str
  multi : Option (Str × Str)
deriving DecidableEq

/-- Tokenizer state of scan_file: in_multiline_comment and multiline_content. -/
structure ScanState where
  inBlock : Bool
  content : List Str
deriving DecidableEq

/-- One record appended by CommentScanner._process_comment (the file path field is
handled by the excluded path machinery and is not modelled). -/
structure CommentRecord where
  marker : Str
  text : Str
  line : Nat
  context : Str
deriving DecidableEq

/-- COMMENT_MARKERS from src/config.py: marker token to description, in insertion
order (Python dicts preserve it and the scanner iterates over the keys). -/
def COMMENT_MARKERS : List (Str × String) :=
  [ (cs ("!"), "Important")
  , (cs ("TODO"), "To Do")
  , (cs ("?"), "Question")
  , (cs ("REVIEW"), "Needs Review")
  , (cs ("FIXME"), "Fix Required")
  , (cs ("NOTE"), "Note") ]

/-- The ordered marker tokens, as iterated by `for marker in config.COMMENT_MARKERS`. -/
def markerTokens : List Str := COMMENT_MARKERS.map (fun p => p.1)

/-- DEFAULT_SKIP_MARKERS from src/config.py. -/
def DEFAULT_SKIP_MARKERS : List Str := [cs ("NOTE")]

/-- CONTEXT_LINES from src/config.py. -/
def CONTEXT_LINES : Nat := 2

/-- The default grammar of COMMENT_PATTERNS (single-line //, no block delimiters). -/
def defaultGrammar : Grammar := { single := [cs ("//")], multi := none }

/-- The Python grammar of COMMENT_PATTERNS. -/
def pyGrammar : Grammar :=
  { single := [cs ("#")], multi := some (cs ("\"\"\""), cs ("\"\"\"")) }

/-- The C-like grammar (//, block delimiters) used for js, ts, c, cpp, h, java, php. -/
def cLikeGrammar : Grammar :=
  { single := [cs ("//")], multi := some (cs ("/*"), cs ("*/")) }

/-- The Ruby grammar of COMMENT_PATTERNS. -/
def rbGrammar : Grammar :=
  { single := [cs ("#")], multi := some (cs ("=begin"), cs ("=end")) }

/-- COMMENT_PATTERNS from src/config.py, keyed by extension. -/
def COMMENT_PATTERNS : List (String × Grammar) :=
  [ ("default", defaultGrammar)
  , ("py", pyGrammar)
  , ("js", cLikeGrammar)
  , ("ts", cLikeGrammar)
  , ("c", cLikeGrammar)
  , ("cpp", cLikeGrammar)
  , ("h", cLikeGrammar)
  , ("java", cLikeGrammar)
  , ("rb", rbGrammar)
  , ("php", cLikeGrammar) ]

/-- The body of the two context-gathering loops of get_context_lines: iterate n
indices starting at i, appending the indented non-empty stripped lines to acc. -/
def contextLoop (all_lines : List Str) : Nat → Nat → List Str → List Str
  | _, 0, acc => acc
  | i, n + 1, acc =>
    let l := pyStrip (all_lines.getD i [])
    contextLoop all_lines (i + 1) n (if l.isEmpty then acc else acc ++ [cs ("  ") ++ l])

/-- CommentScanner.get_context_lines as a list of formatted lines, before joining:
lines from max(0, idx - CONTEXT_LINES) up to idx, the arrow-marked target line, then
lines from idx + 1 up to min(length, idx + CONTEXT_LINES + 1); empty stripped lines
are skipped in both loops. -/
def get_context_lines_list (all_lines : List Str) (idx : Nat) : List Str :=
  let start_idx := idx - CONTEXT_LINES
  let end_idx := min all_lines.length (idx + CONTEXT_LINES + 1)
  let before := contextLoop all_lines start_idx (idx - start_idx) []
  let withTarget := before ++ [cs ("→ ") ++ pyStrip (all_lines.getD idx [])]
  contextLoop all_lines (idx + 1) (end_idx - (idx + 1)) withTarget

/-- CommentScanner.get_context_lines: the formatted block, newline-joined. -/
def get_context_lines (all_lines : List Str) (idx : Nat) : Str :=
  joinWith (cs ("\n")) (get_context_lines_list all_lines idx)

/-- The marker loop of CommentScanner._process_comment: first token in the given
order with which the comment text starts and which is not in the skip set. -/
def findMarker (skip : List Str) (text : Str) : List Str → Option Str
  | [] => none
  | m :: rest =>
    if startsWithL m text && !(skip.contains m) then some m
    else findMarker skip text rest

/-- CommentScanner._process_comment: build at most one record from a raw comment
text emitted at 0-based line index idx of the given lines. -/
def process_comment (skip : List Str) (all_lines : List Str) (text : Str) (idx : Nat) :
    Option CommentRecord :=
  match findMarker skip text markerTokens with
  | some m =>
    some { marker := m
         , text := pyStrip (text.drop m.length)
         , line := idx + 1
         , context := get_context_lines all_lines idx }
  | none => none

/-- The single-line loop at the end of scan_file's per-line handling: the first
single-line pattern contained in the stripped line emits the text after its first
occurrence, stripped; the tokenizer state is unchanged. -/
def singleStep (singles : List Str) (stripped : Str) (st : ScanState) (idx : Nat) :
    ScanState × List (Str × Nat) :=
  match singles.find? (fun p => containsSub p stripped) with
  | some p => (st, [(pyStrip (stripped.drop (findD p stripped + p.length)), idx)])
  | none => (st, [])

/-- One iteration of scan_file's per-line loop: strip, skip blank lines, the fast
path (note: it does not consult the block state), then the same-line block branch,
the block-open branch, the in-block close/accumulate branches, and finally the
single-line loop. Emits raw (comment text, 0-based line index) spans. -/
def stepLine (g : Grammar) (st : ScanState) (idx : Nat) (line : Str) :
    ScanState × List (Str × Nat) :=
  let stripped := pyStrip line
  if stripped.isEmpty then (st, [])
  else if !(g.single.any (fun p => containsSub p stripped)) &&
      !(match g.multi with
        | some pq => containsSub pq.1 stripped || containsSub pq.2 stripped
        | none => false) then
    (st, [])
  else
    match g.multi with
    | some (sp, ep) =>
      if containsSub sp stripped &&
          containsSub ep (stripped.drop (findD sp stripped + sp.length)) then
        (st, [(pyStrip ((stripped.take (rfindD ep stripped)).drop
                 (findD sp stripped + sp.length)), idx)])
      else if containsSub sp stripped && !st.inBlock then
        ({ inBlock := true
         , content := [pyStrip (stripped.drop (findD sp stripped + sp.length))] }, [])
      else if st.inBlock then
        if containsSub ep stripped then
          ({ inBlock := false, content := [] }
          , [(joinWith (cs (" ")) (st.content ++ [pyStrip (stripped.take (findD ep stripped))]), idx)])
        else
          ({ st with content := st.content ++ [stripped] }, [])
      else singleStep g.single stripped st idx
    | none => singleStep g.single stripped st idx

/-- The whole per-line loop of scan_file over the remaining lines, threading the
tokenizer state and collecting emitted spans in order. -/
def scanAux (g : Grammar) : ScanState → Nat → List Str → List (Str × Nat)
  | _, _, [] => []
  | st, idx, l :: ls =>
    let r := stepLine g st idx l
    r.2 ++ scanAux g r.1 (idx + 1) ls

/-- Tokenizer-level scan of a file's lines: fresh state, spans in line order;
content still accumulated at end of file is discarded (unterminated block). -/
def scanLines (g : Grammar) (lines : List Str) : List (Str × Nat) :=
  scanAux g { inBlock := false, content := [] } 0 lines

/-- CommentScanner.scan_file. The file is given as its lowercased dotless extension
and its decoded lines (none models a UnicodeDecodeError). Unknown extensions and
undecodable files yield no records; a file whose full content contains no marker
token substring is short-circuited; otherwise each emitted span passes through
_process_comment. -/
def scan_file (ext : String) (decoded : Option (List Str)) (skip : List Str) :
    List CommentRecord :=
  match COMMENT_PATTERNS.lookup ext with
  | none => []
  | some g =>
    match decoded with
    | none => []
    | some lines =>
      let content := joinWith (cs ("\n")) lines
      if markerTokens.any (fun m => containsSub m content) then
        (scanLines g lines).filterMap (fun sp => process_comment skip lines sp.1 sp.2)
      else []

/-- The window builder described by the spec: exactly the CONTEXT_LINES indices
before the target (clipped at 0) and exactly the CONTEXT_LINES indices after it
(clipped at the file end), stripped, blanks dropped, indented, around the
arrow-marked target line, with no expansion of the index window. -/
def contextWindowSpec (all_lines : List Str) (idx : Nat) : List Str :=
  let beforeIdxs := List.range' (idx - CONTEXT_LINES) (min CONTEXT_LINES idx)
  let afterIdxs :=
    List.range' (idx + 1) (min all_lines.length (idx + CONTEXT_LINES + 1) - (idx + 1))
  (((beforeIdxs.map (fun i => pyStrip (all_lines.getD i []))).filter
      (fun l => !l.isEmpty)).map (fun l => cs ("  ") ++ l))
    ++ [cs ("→ ") ++ pyStrip (all_lines.getD idx [])]
    ++ (((afterIdxs.map (fun i => pyStrip (all_lines.getD i []))).filter
      (fun l => !l.isEmpty)).map (fun l => cs ("  ") ++ l))

/-- The fallback behaviour the spec claims for unknown extensions, written from the
spec's words for comparison with scan_file: look the extension up in the grammar
table and fall back to the default grammar when absent, then scan as usual. -/
def scan_file_fallback_spec (ext : String) (decoded : Option (List Str))
    (skip : List Str) : List CommentRecord :=
  let g := (COMMENT_PATTERNS.lookup ext).getD defaultGrammar
  match decoded with
  | none => []
  | some lines =>
    let content := joinWith (cs ("\n")) lines
    if markerTokens.any (fun m => containsSub m content) then
      (scanLines g lines).filterMap (fun sp => process_comment skip lines sp.1 sp.2)
    else []

/-- CommentScanner.__init__'s skip-marker handling:
`self.skip_markers = skip_markers or config.DEFAULT_SKIP_MARKERS` replaces a falsy
argument (None, or the empty set) with the default skip set. -/
def scanner_skip_markers (arg : Option (List Str)) : List Str :=
  match arg with
  | none => DEFAULT_SKIP_MARKERS
  | some s => if s.isEmpty then DEFAULT_SKIP_MARKERS else s

section Lemmas

/-- A nonempty pattern never starts the empty string. -/
theorem startsWithL_nil (pat : Str) (h : pat ≠ []) : startsWithL pat [] = false := by
  cases pat with
  | nil => exact absurd rfl h
  | cons c fs => rfl

/-- Containment means the pattern starts some suffix. -/
theorem containsSub_iff (pat s : Str) :
    containsSub pat s = true ↔ ∃ j, startsWithL pat (s.drop j) = true := by
  induction s with
  | nil =>
    simp only [containsSub, List.drop_nil]
    exact ⟨fun h => ⟨0, h⟩, fun ⟨_, h⟩ => h⟩
  | cons c fs ih =>
    simp only [containsSub, Bool.or_eq_true, ih]
    constructor
    · rintro (h | ⟨j, hj⟩)
      · exact ⟨0, h⟩
      · exact ⟨j + 1, hj⟩
    · rintro ⟨j, hj⟩
      cases j with
      | zero => exact Or.inl hj
      | succ j => exact Or.inr ⟨j, hj⟩

/-- A nonempty pattern is only contained in a nonempty string. -/
theorem containsSub_ne_nil (pat s : Str) (hp : pat ≠ []) (h : containsSub pat s = true) :
    s ≠ [] := by
  intro hs
  subst hs
  simp [containsSub, startsWithL_nil pat hp] at h

/-- Membership in occAux: exactly the positions at or past the offset where the
pattern starts the corresponding suffix (pattern nonempty). -/
theorem mem_occAux (pat : Str) (hp : pat ≠ []) (s : Str) :
    ∀ i j, j ∈ occAux pat s i ↔ i ≤ j ∧ startsWithL pat (s.drop (j - i)) = true := by
  induction s with
  | nil =>
    intro i j
    simp [occAux, startsWithL_nil pat hp]
  | cons c fs ih =>
    intro i j
    simp only [occAux, List.mem_append, ih (i + 1) j]
    constructor
    · rintro (h | ⟨hij, hst⟩)
      · have hj : j = i := by
          by_cases hc : startsWithL pat (c :: fs) = true
          · simp [hc] at h; omega
          · simp [hc] at h
        subst hj
        have hc : startsWithL pat (c :: fs) = true := by
          by_cases hc : startsWithL pat (c :: fs) = true
          · exact hc
          · simp [hc] at h
        simpa using hc
      · refine ⟨by omega, ?_⟩
        have : j - i = (j - (i + 1)) + 1 := by omega
        rw [this]
        simpa using hst
    · rintro ⟨hij, hst⟩
      by_cases hj : j = i
      · subst hj
        simp only [Nat.sub_self, List.drop_zero] at hst
        left
        simp [hst]
      · right
        refine ⟨by omega, ?_⟩
        have : j - i = (j - (i + 1)) + 1 := by omega
        rw [this] at hst
        simpa using hst

/-- Python find returns the head of the occurrence list. -/
theorem findAux_eq_head (pat s : Str) : ∀ i, findAux pat s i = (occAux pat s i).head? := by
  induction s with
  | nil =>
    intro i
    by_cases h : startsWithL pat [] = true <;> simp [findAux, occAux, h]
  | cons c fs ih =>
    intro i
    by_cases h : startsWithL pat (c :: fs) = true <;> simp [findAux, occAux, h, ih (i + 1)]

/-- A found marker starts the text and is not skipped. -/
theorem findMarker_some (skip : List Str) (text m : Str) :
    ∀ order, findMarker skip text order = some m →
      startsWithL m text = true ∧ skip.contains m = false := by
  intro order
  induction order with
  | nil => intro h; exact absurd h (by simp [findMarker])
  | cons x rest ih =>
    intro h
    by_cases hx : (startsWithL x text && !(skip.contains x)) = true
    · simp only [findMarker, hx, if_true, Option.some.injEq] at h
      subst h
      simpa [Bool.and_eq_true] using hx
    · simp only [findMarker, hx, if_false] at h
      exact ih h

/-- The found marker is the first eligible one: everything before it in the order
either does not start the text or is skipped. -/
theorem findMarker_split (skip : List Str) (text m : Str) :
    ∀ order, findMarker skip text order = some m →
      ∃ l₁ l₂, order = l₁ ++ m :: l₂ ∧
        ∀ p ∈ l₁, ¬(startsWithL p text = true ∧ skip.contains p = false) := by
  intro order
  induction order with
  | nil => intro h; exact absurd h (by simp [findMarker])
  | cons x rest ih =>
    intro h
    by_cases hx : (startsWithL x text && !(skip.contains x)) = true
    · simp only [findMarker, hx, if_true, Option.some.injEq] at h
      subst h
      exact ⟨[], rest, rfl, by simp⟩
    · simp only [findMarker, hx, if_false] at h
      obtain ⟨l₁, l₂, heq, hall⟩ := ih h
      refine ⟨x :: l₁, l₂, by rw [heq]; rfl, ?_⟩
      intro p hp
      rcases List.mem_cons.mp hp with hpx | hpl
      · subst hpx
        intro ⟨h1, h2⟩
        exact hx (by rw [h1, h2]; rfl)
      · exact hall p hpl

/-- The context loop is append of the filtered, indented window rows. -/
theorem contextLoop_eq (all_lines : List Str) :
    ∀ n i acc, contextLoop all_lines i n acc =
      acc ++ (((List.range' i n).map (fun j => pyStrip (all_lines.getD j []))).filter
        (fun l => !l.isEmpty)).map (fun l => cs ("  ") ++ l) := by
  intro n
  induction n with
  | zero => intro i acc; simp [contextLoop]
  | succ n ih =>
    intro i acc
    rw [contextLoop, List.range'_succ i n 1]
    by_cases h : pyStrip (all_lines[i]?.getD []) = []
    · rw [if_pos (by simpa using h), ih]
      simp [List.filter_cons, h]
    · rw [if_neg (by simpa using h), ih]
      simp [List.filter_cons, h]

end Lemmas

example : containsSub (cs ("*/")) (cs ("c */")) = true := by decide
example : pyStrip (cs ("  a b  ")) = cs ("a b") := by decide
example : startsWithL (cs ("TODO")) (cs ("TODO x")) = true := by decide
example : findD (cs ("/*")) (cs ("x /* y")) = 2 := by decide
example : rfindD (cs ("*/")) (cs ("a */ b */")) = 7 := by decide
example : occList (cs ("\"\"\"")) (cs ("\"\"\"")) = [0] := by decide
example : (COMMENT_PATTERNS.lookup ("js")) = some cLikeGrammar := by decide
example : (COMMENT_PATTERNS.lookup ("json")) = none := by decide

/-- C1: the per-line fast reject does consult only the delimiter substrings and not
the open-block state, so the interior line of a three-line block comment is dropped
from the joined body: the spec's example yields the span body a c (not a b c), and
the marker variant yields one record with body a c attributed to the closing line. -/
theorem fastRejectDropsBlockLine :
    scanLines cLikeGrammar [cs ("/* a"), cs ("b"), cs ("c */")] = [(cs ("a c"), 2)] ∧
    (scan_file ("js") (some [cs ("/* ! a"), cs ("b"), cs ("c */")]) DEFAULT_SKIP_MARKERS).map
      (fun r => (r.marker, r.text, r.line)) = [(cs ("!"), cs ("a c"), 3)] :=
  ⟨by decide, by decide⟩

/-- C2 counterexample: inside an open block, a line containing a start delimiter with
an end delimiter after it does not exit block state and does not emit the joined
accumulated comment; it emits the same-line span and leaves the block open. -/
theorem blockEndInsideBlock_cex :
    (stepLine cLikeGrammar { inBlock := true, content := [cs ("! open")] } 1
        (cs ("/* ? x */"))).1.inBlock = true ∧
    (stepLine cLikeGrammar { inBlock := true, content := [cs ("! open")] } 1
        (cs ("/* ? x */"))).2 = [(cs ("? x"), 1)] :=
  ⟨by decide, by decide⟩

/-- C2 (amended): inside an open block, a non-blank line in which the end delimiter
appears, and which does not satisfy the same-line start/end condition that takes
precedence, exits block state, appends the stripped text before the first end
delimiter, and emits the space-joined fragments at the closing line index. -/
theorem blockCloseEmitsJoined (g : Grammar) (sp ep : Str) (st : ScanState) (idx : Nat)
    (line : Str) (hg : g.multi = some (sp, ep)) (hep : ep ≠ []) (hst : st.inBlock = true)
    (hend : containsSub ep (pyStrip line) = true)
    (hnot : ¬(containsSub sp (pyStrip line) = true ∧
      containsSub ep ((pyStrip line).drop (findD sp (pyStrip line) + sp.length)) = true)) :
    stepLine g st idx line =
      ({ inBlock := false, content := [] },
       [(joinWith (cs (" "))
           (st.content ++ [pyStrip ((pyStrip line).take (findD ep (pyStrip line)))]), idx)]) := by
  have hne : pyStrip line ≠ [] := containsSub_ne_nil ep (pyStrip line) hep hend
  simp only [stepLine, hg]
  rw [if_neg (by simpa using hne)]
  rw [if_neg (by simp [hend])]
  rw [if_neg (by simpa [Bool.and_eq_true] using hnot)]
  rw [if_neg (by simp [hst])]
  rw [if_pos hst]
  rw [if_pos hend]

/-- C2 witness: closing a js block opened with fragment ! a by the line b */ exits
the block and emits ! a b at the closing line. -/
theorem blockCloseEmitsJoined_wit :
    stepLine cLikeGrammar { inBlock := true, content := [cs ("! a")] } 5 (cs ("b */")) =
      ({ inBlock := false, content := [] }, [(cs ("! a b"), 5)]) := by
  rw [blockCloseEmitsJoined cLikeGrammar (cs ("/*")) (cs ("*/"))
    { inBlock := true, content := [cs ("! a")] } 5 (cs ("b */")) rfl (by decide) rfl
    (by decide) (by decide)]
  decide

/-- C7: outside an open block, a line containing the block start delimiter with the
end delimiter strictly after it emits exactly one span (the stripped text between
first start and last end) at that line, and block state is not entered. -/
theorem sameLineBlock (g : Grammar) (sp ep : Str) (st : ScanState) (idx : Nat)
    (line : Str) (hg : g.multi = some (sp, ep)) (hsp : sp ≠ []) (_hst : st.inBlock = false)
    (h1 : containsSub sp (pyStrip line) = true)
    (h2 : containsSub ep ((pyStrip line).drop (findD sp (pyStrip line) + sp.length)) = true) :
    stepLine g st idx line =
      (st, [(pyStrip (((pyStrip line).take (rfindD ep (pyStrip line))).drop
              (findD sp (pyStrip line) + sp.length)), idx)]) := by
  have hne : pyStrip line ≠ [] := containsSub_ne_nil sp (pyStrip line) hsp h1
  simp only [stepLine, hg]
  rw [if_neg (by simpa using hne)]
  rw [if_neg (by simp [h1])]
  rw [if_pos (by rw [h1, h2]; rfl)]

/-- C7 witness: the same-line block comment of the spec's example emits one span with
body ! fixme now and leaves the state unchanged; through scan_file the file yields
one record with marker ! and body fixme now on line 1. -/
theorem sameLineBlock_wit :
    stepLine cLikeGrammar { inBlock := false, content := [] } 0 (cs ("/* ! fixme now */")) =
      ({ inBlock := false, content := [] }, [(cs ("! fixme now"), 0)]) ∧
    (scan_file ("js") (some [cs ("/* ! fixme now */")]) DEFAULT_SKIP_MARKERS).map
      (fun r => (r.marker, r.text, r.line)) = [(cs ("!"), cs ("fixme now"), 1)] := by
  constructor
  · rw [sameLineBlock cLikeGrammar (cs ("/*")) (cs ("*/"))
      { inBlock := false, content := [] } 0 (cs ("/* ! fixme now */")) rfl (by decide) rfl
      (by decide) (by decide)]
    decide
  · decide

/-- C10: with identical start and end delimiters, a line outside any block containing
exactly one occurrence of the delimiter opens persistent block state (capturing the
stripped remainder after the delimiter) and emits nothing, because the same-line
case demands a second occurrence strictly after the first. -/
theorem loneDelimiterOpensBlock (g : Grammar) (d : Str) (st : ScanState) (idx : Nat)
    (line : Str) (p : Nat) (hg : g.multi = some (d, d)) (hd : d ≠ [])
    (hst : st.inBlock = false) (hocc : occList d (pyStrip line) = [p]) :
    stepLine g st idx line =
      ({ inBlock := true, content := [pyStrip ((pyStrip line).drop (p + d.length))] }, []) := by
  have hoccA : occAux d (pyStrip line) 0 = [p] := hocc
  have hmem : p ∈ occAux d (pyStrip line) 0 := by rw [hoccA]; simp
  have hstart : startsWithL d ((pyStrip line).drop p) = true := by
    have := ((mem_occAux d hd (pyStrip line) 0 p).mp hmem).2
    simpa using this
  have hcont : containsSub d (pyStrip line) = true :=
    (containsSub_iff d (pyStrip line)).mpr ⟨p, hstart⟩
  have hne : pyStrip line ≠ [] := containsSub_ne_nil d (pyStrip line) hd hcont
  have hfind : findD d (pyStrip line) = p := by
    unfold findD findSub
    rw [findAux_eq_head d (pyStrip line) 0, hoccA]
    rfl
  have hafter : containsSub d ((pyStrip line).drop (p + d.length)) = false := by
    cases hb : containsSub d ((pyStrip line).drop (p + d.length)) with
    | false => rfl
    | true =>
      exfalso
      obtain ⟨j, hj⟩ := (containsSub_iff d _).mp hb
      rw [List.drop_drop] at hj
      have hmem2 : (p + d.length + j) ∈ occAux d (pyStrip line) 0 :=
        (mem_occAux d hd (pyStrip line) 0 _).mpr ⟨Nat.zero_le _, by simpa using hj⟩
      rw [hoccA] at hmem2
      have hpe : p + d.length + j = p := by simpa using hmem2
      have hdz : d.length = 0 := by omega
      exact hd (List.length_eq_zero.mp hdz)
  simp only [stepLine, hg]
  rw [if_neg (by simpa using hne)]
  rw [if_neg (by simp [hcont])]
  rw [if_neg (by rw [hfind]; simp [hcont, hafter])]
  rw [if_pos (by rw [hcont, hst]; rfl)]
  rw [hfind]

/-- C10 witness: a lone triple-quote line under the Python grammar opens block state
with an empty first fragment and emits nothing. -/
theorem loneDelimiterOpensBlock_wit :
    stepLine pyGrammar { inBlock := false, content := [] } 0 (cs ("\"\"\"")) =
      ({ inBlock := true, content := [[]] }, []) := by
  rw [loneDelimiterOpensBlock pyGrammar (cs ("\"\"\""))
    { inBlock := false, content := [] } 0 (cs ("\"\"\"")) 0 rfl (by decide) rfl (by decide)]
  decide

/-- C3 counterexample: a json file whose only line is a // comment with a TODO marker
yields no records at all, while the fallback-to-default behaviour the spec describes
would yield one; so the scanner skips unknown extensions instead of falling back. -/
theorem unknownExtFallback_cex :
    scan_file ("json") (some [cs ("// TODO x")]) DEFAULT_SKIP_MARKERS = [] ∧
    (scan_file_fallback_spec ("json") (some [cs ("// TODO x")]) DEFAULT_SKIP_MARKERS).map
      (fun r => (r.marker, r.text, r.line)) = [(cs ("TODO"), cs ("x"), 1)] :=
  ⟨by decide, by decide⟩

/-- C3 (amended): a file whose lowercased extension is not a key of the grammar table
is skipped entirely, yielding no records; the table's default entry is never applied
as a fallback. -/
theorem unknownExtSkipped (ext : String) (decoded : Option (List Str)) (skip : List Str)
    (h : COMMENT_PATTERNS.lookup ext = none) : scan_file ext decoded skip = [] := by
  unfold scan_file
  rw [h]

/-- C3 witness: the txt extension is absent from the table and its scan is empty even
for content full of default-grammar comments. -/
theorem unknownExtSkipped_wit :
    COMMENT_PATTERNS.lookup ("txt") = none ∧
    scan_file ("txt") (some [cs ("// ! a")]) [] = [] :=
  ⟨by decide, unknownExtSkipped ("txt") (some [cs ("// ! a")]) [] (by decide)⟩

/-- C4: a matched marker starts the comment text, is not in the skip set, and every
registry token before it fails one of those two tests; the Option result makes at
most one marker per span. -/
theorem markerFirstMatch (skip : List Str) (text m : Str)
    (h : findMarker skip text markerTokens = some m) :
    startsWithL m text = true ∧ skip.contains m = false ∧
      ∃ l₁ l₂, markerTokens = l₁ ++ m :: l₂ ∧
        ∀ p ∈ l₁, ¬(startsWithL p text = true ∧ skip.contains p = false) := by
  obtain ⟨h1, h2⟩ := findMarker_some skip text m markerTokens h
  exact ⟨h1, h2, findMarker_split skip text m markerTokens h⟩

/-- C4 witness: the comment text of the spec's example matches the token ! (the
first registry token), never a later one. -/
theorem markerFirstMatch_wit :
    findMarker DEFAULT_SKIP_MARKERS (cs ("!important fix")) markerTokens = some (cs ("!")) ∧
    (startsWithL (cs ("!")) (cs ("!important fix")) = true ∧
      DEFAULT_SKIP_MARKERS.contains (cs ("!")) = false ∧
      ∃ l₁ l₂, markerTokens = l₁ ++ (cs ("!")) :: l₂ ∧
        ∀ p ∈ l₁, ¬(startsWithL p (cs ("!important fix")) = true ∧
          DEFAULT_SKIP_MARKERS.contains p = false)) :=
  ⟨by decide,
   markerFirstMatch DEFAULT_SKIP_MARKERS (cs ("!important fix")) (cs ("!")) (by decide)⟩

/-- C5: every record a file scan produces carries a marker outside the active skip
set; a skipped marker never yields a record. -/
theorem recordMarkerNotSkipped (ext : String) (decoded : Option (List Str))
    (skip : List Str) (r : CommentRecord) (h : r ∈ scan_file ext decoded skip) :
    skip.contains r.marker = false := by
  unfold scan_file at h
  cases hg : COMMENT_PATTERNS.lookup ext with
  | none => rw [hg] at h; simp at h
  | some g =>
    rw [hg] at h
    cases decoded with
    | none => simp at h
    | some lines =>
      simp only at h
      by_cases hq :
          (markerTokens.any fun m => containsSub m (joinWith (cs ("\n")) lines)) = true
      · rw [if_pos hq, List.mem_filterMap] at h
        obtain ⟨sp, _, hpc⟩ := h
        unfold process_comment at hpc
        cases hfm : findMarker skip sp.1 markerTokens with
        | none => rw [hfm] at hpc; simp at hpc
        | some m =>
          rw [hfm] at hpc
          simp only [Option.some.injEq] at hpc
          rw [← hpc]
          exact (findMarker_some skip sp.1 m markerTokens hfm).2
      · rw [if_neg hq] at h
        simp at h

/-- C5 witness: the TODO record extracted from a js file under the default skip set
has a marker outside the skip set. -/
theorem recordMarkerNotSkipped_wit :
    (⟨cs ("TODO"), cs ("x"), 1, cs ("→ // TODO x")⟩ : CommentRecord) ∈
      scan_file ("js") (some [cs ("// TODO x")]) DEFAULT_SKIP_MARKERS ∧
    DEFAULT_SKIP_MARKERS.contains
      (⟨cs ("TODO"), cs ("x"), 1, cs ("→ // TODO x")⟩ : CommentRecord).marker = false :=
  ⟨by decide,
   recordMarkerNotSkipped ("js") (some [cs ("// TODO x")]) DEFAULT_SKIP_MARKERS
     ⟨cs ("TODO"), cs ("x"), 1, cs ("→ // TODO x")⟩ (by decide)⟩

/-- C6: the context builder returns exactly the non-empty stripped lines of the
fixed index windows of width CONTEXT_LINES on each side of the arrow-marked target,
with blanks dropped and no window expansion; on the spec's example (target index 10,
index 9 blank) it returns the lines 8, 10 (marked), 11 and 12. -/
theorem contextWindowMatchesSpec :
    (∀ all_lines idx, get_context_lines_list all_lines idx = contextWindowSpec all_lines idx) ∧
    get_context_lines
      [cs ("L0"), cs ("L1"), cs ("L2"), cs ("L3"), cs ("L4"), cs ("L5"), cs ("L6"),
       cs ("L7"), cs ("L8"), cs (""), cs ("L10"), cs ("L11"), cs ("L12")] 10 =
      cs ("  L8\n→ L10\n  L11\n  L12") := by
  constructor
  · intro all_lines idx
    unfold get_context_lines_list contextWindowSpec
    rw [contextLoop_eq, contextLoop_eq]
    have h1 : idx - (idx - CONTEXT_LINES) = min CONTEXT_LINES idx := by
      unfold CONTEXT_LINES
      omega
    rw [h1]
    simp [List.append_assoc]
  · decide

/-- C8: scan_file yields the empty record list for any unsupported extension, for any
undecodable file, and in particular for every json file. -/
theorem scanFileEmptyCases :
    (∀ ext decoded skip, COMMENT_PATTERNS.lookup ext = none →
      scan_file ext decoded skip = []) ∧
    (∀ ext skip, scan_file ext none skip = []) ∧
    (∀ decoded skip, scan_file ("json") decoded skip = []) := by
  refine ⟨?_, ?_, ?_⟩
  · intro ext decoded skip h
    unfold scan_file
    rw [h]
  · intro ext skip
    unfold scan_file
    cases COMMENT_PATTERNS.lookup ext <;> rfl
  · intro decoded skip
    unfold scan_file
    rw [show COMMENT_PATTERNS.lookup ("json") = none by decide]

/-- C8 witness: an unsupported xml extension, an undecodable js file and a json file
with marker-bearing content all yield no records. -/
theorem scanFileEmptyCases_wit :
    scan_file ("xml") (some [cs ("// ! a")]) [] = [] ∧
    scan_file ("js") none [] = [] ∧
    scan_file ("json") (some [cs ("// ! a")]) [] = [] :=
  ⟨scanFileEmptyCases.1 ("xml") (some [cs ("// ! a")]) [] (by decide),
   scanFileEmptyCases.2.1 ("js") [],
   scanFileEmptyCases.2.2 (some [cs ("// ! a")]) []⟩

/-- C9: the constructor turns an explicitly empty skip set into the default skip set,
so no argument can express an empty skip set, and the include-all path still leaves
a NOTE comment without a record. -/
theorem emptySkipSetImpossible :
    scanner_skip_markers (some []) = [cs ("NOTE")] ∧
    (∀ arg, scanner_skip_markers arg ≠ []) ∧
    process_comment (scanner_skip_markers (some [])) [cs ("# NOTE hi")]
      (cs ("NOTE hi")) 0 = none := by
  refine ⟨by decide, ?_, by decide⟩
  intro arg
  match arg with
  | none => decide
  | some [] => decide
  | some (x :: xs) => simp [scanner_skip_markers]

end Overseer
